import Mathlib

/-!
Shallow embedding of the XCrawler monitoring pipeline (main.py and the
modules under src/): the event detector (src/event_detector.py), the
database manager (src/database.py), the Discord notifier
(src/discord_notifier.py), the media-download entry points of the
twitter monitor (src/twitter_monitor.py), the backup manager's
rate-limit wait extraction (src/backup_manager.py), the log-only
uploader's database interaction (src/log_only_hf_uploader.py) and the
orchestrator's log-only branch (main.py).

External effects (LLM calls, HTTP uploads/downloads) are modelled as
function parameters; database tables are modelled as lists of rows, a
SQLAlchemy session as a working copy of the table that is either
committed (returned) or discarded when an exception escapes before
`session.commit()` (the `finally: session.close()` path rolls back
uncommitted work).  A Python exception that propagates to the caller is
modelled by the `raised` constructor of `DbResult`.  Machine floats in
the source (classifier confidences) are modelled as rationals; the only
comparisons performed (0.5 / 0.59 / 0.6 against the 0.6 threshold) are
exact in both representations.
-/

namespace XCrawler

/-- Models Python `needle.startswith` on explicit character lists:
`listStarts n h` is true iff `n` is an initial segment of `h`. -/
def listStarts : List Char → List Char → Bool
  | [], _ => true
  | _ :: _, [] => false
  | n :: ns, h :: hs => n == h && listStarts ns hs

/-- Models the Python substring test `needle in hay` (true for the empty
needle, as in Python). -/
def listIncl (needle : List Char) : List Char → Bool
  | [] => listStarts needle []
  | h :: hs => listStarts needle (h :: hs) || listIncl needle hs

/-- Python `needle in hay` for strings. -/
def strIncl (hay needle : String) : Bool :=
  listIncl needle.data hay.data

/-- Models Python `str.lower()` (per-character ASCII lowering; the
configured keywords are Japanese or ASCII, for which this agrees). -/
def strLower (s : String) : String :=
  String.mk (s.data.map Char.toLower)

/-- A crawled post as the dicts built in twitter_monitor.py /
gallery_dl_extractor.py: keys `id`, `text`, `date` (ISO string), `url`,
`username`, optional `display_name`, `media`, `videos`, `local_media`,
`huggingface_urls`, `uploaded_to_hf`. -/
structure TweetData where
  id : String
  text : String
  date : String
  url : String
  username : String
  display_name : Option String := none
  media : List String := []
  videos : List String := []
  local_media : List String := []
  huggingface_urls : List String := []
  uploaded_to_hf : Bool := false
deriving Repr, DecidableEq

/-- The two keyword lists of `config['event_detection']` read in
EventDetector.__init__ (event_detector.py lines 20-21). -/
structure DetectorConfig where
  keywords : List String
  exclude_keywords : List String
deriving Repr, DecidableEq

/-- EventDetector._quick_keyword_check (event_detector.py lines 52-68):
reject when any exclude keyword occurs in the lowercased text, else
collect the matched include keywords and report whether any matched. -/
def quick_keyword_check (cfg : DetectorConfig) (tweet_text : String) :
    Bool × List String :=
  let text_lower := strLower tweet_text
  if cfg.exclude_keywords.any (fun kw => strIncl text_lower (strLower kw)) then
    (false, [])
  else
    let matched_keywords :=
      cfg.keywords.filter (fun kw => strIncl text_lower (strLower kw))
    (decide (0 < matched_keywords.length), matched_keywords)

/-- A parsed LLM classification result (the JSON dict returned by
EventDetector._analyze_with_llm).  Fields are optional because the
source reads every one of them with `dict.get` and a default. -/
structure AnalysisResult where
  is_event_related : Option Bool := none
  confidence : Option ℚ := none
  event_type : Option String := none
  event_date : Option String := none
  participation_type : Option String := none
  reason : Option String := none
deriving Repr, DecidableEq

/-- Character class `[A-Zあ-ん\d]` of the space-number pattern in
EventDetector.extract_event_info (event_detector.py line 275). -/
def spaceCls (c : Char) : Bool :=
  ('A' ≤ c && c ≤ 'Z') || ('あ' ≤ c && c ≤ 'ん') || c.isDigit

/-- Character class `[東西南北]` of the space-number pattern. -/
def isCompass (c : Char) : Bool :=
  c == '東' || c == '西' || c == '南' || c == '北'

/-- The optional `[ab]?` tail of the space-number pattern. -/
def abOpt : List Char → List Char
  | c :: _ => if c == 'a' || c == 'b' then [c] else []
  | [] => []

/-- Matches the `-?\d+[ab]?` tail of the space-number pattern at the
head of `rest`, returning the matched characters (regex semantics:
`-?` takes a dash when one is present and digits follow, `\d+` is
greedy, `[ab]?` optional). -/
def spaceTail (rest : List Char) : Option (List Char) :=
  match rest with
  | '-' :: r2 =>
    let dr := r2.takeWhile Char.isDigit
    if dr.isEmpty then none
    else some ('-' :: (dr ++ abOpt (r2.drop dr.length)))
  | _ =>
    let dr := rest.takeWhile Char.isDigit
    if dr.isEmpty then none
    else some (dr ++ abOpt (rest.drop dr.length))

/-- Backtracking over the greedy `[A-Zあ-ん\d]+` group: try consuming
`k` class characters for `k` from the maximal run length down to 1,
then match the `-?\d+[ab]?` tail. -/
def spaceGroup (rest : List Char) : Nat → Option (List Char)
  | 0 => none
  | k + 1 =>
    match spaceTail (rest.drop (k + 1)) with
    | some suf => some (rest.take (k + 1) ++ suf)
    | none => spaceGroup rest k

/-- Attempts the whole pattern `[東西南北][A-Zあ-ん\d]+-?\d+[ab]?` at the
start of `cs`. -/
def matchSpaceAt (cs : List Char) : Option (List Char) :=
  match cs with
  | [] => none
  | d :: rest =>
    if isCompass d then
      (spaceGroup rest ((rest.takeWhile spaceCls).length)).map (fun t => d :: t)
    else none

/-- Models `re.search` for the space-number pattern: leftmost match. -/
def searchSpaceNumber : List Char → Option (List Char)
  | [] => none
  | c :: cs =>
    match matchSpaceAt (c :: cs) with
    | some m => some m
    | none => searchSpaceNumber cs

/-- Models `re.findall(r'「([^」]+)」', text)[0]`: the first 「…」 group
with a non-empty body (event_detector.py lines 281-285). -/
def searchCircleName : List Char → Option (List Char)
  | [] => none
  | c :: cs =>
    if c == '「' then
      let body := cs.takeWhile (fun x => x != '」')
      if !body.isEmpty && body.length < cs.length then some body
      else searchCircleName cs
    else searchCircleName cs

/-- EventDetector.extract_event_info (event_detector.py lines 265-287):
regex extraction of a space/booth number and a circle name; returns the
pair (space_number, circle_name). -/
def extract_event_info (tweet : TweetData) : Option String × Option String :=
  ((searchSpaceNumber tweet.text.data).map String.mk,
   (searchCircleName tweet.text.data).map String.mk)

/-- The `event_info` dict attached to an accepted post in
EventDetector.detect_event_tweets (event_detector.py lines 242-258). -/
structure EventInfo where
  detected_keywords : List String := []
  detected_events : List String := []
  event_type : Option String := none
  event_date : Option String := none
  participation_type : Option String := none
  space_number : Option String := none
  circle_name : Option String := none
deriving Repr, DecidableEq

/-- An element of the list returned by detect_event_tweets: the post
with its attached `event_analysis` and `event_info`. -/
structure EventTweetOut where
  tweet : TweetData
  event_analysis : AnalysisResult
  event_info : EventInfo
deriving Repr, DecidableEq

/-- The per-post model-fallback loop of detect_event_tweets
(event_detector.py lines 220-225): try the configured models in order
until one produces a result.  The external LLM call
`_analyze_with_llm` is a parameter; `none` models both a Python `None`
return and an unparseable (falsy) result. -/
def analyzeWithFallback (analyze : TweetData → String → Option AnalysisResult)
    (tweet : TweetData) : List String → Option AnalysisResult
  | [] => none
  | m :: ms =>
    match analyze tweet m with
    | some r => some r
    | none => analyzeWithFallback analyze tweet ms

/-- The fixed fallback dict built when every model failed
(event_detector.py lines 230-234). -/
def fallbackAnalysis : AnalysisResult :=
  { is_event_related := some true
    confidence := some (mkRat 1 2)  -- 0.5
    reason := some "Keyword match only (LLM unavailable)" }

/-- The acceptance gate of detect_event_tweets (event_detector.py line
237): `analysis_result.get('is_event_related', False) and
analysis_result.get('confidence', 0) >= 0.6`. -/
def acceptGate (r : AnalysisResult) : Bool :=
  r.is_event_related.getD false && decide (mkRat 6 10 ≤ r.confidence.getD 0)  -- 0.6

/-- The body of the per-tweet loop of detect_event_tweets
(event_detector.py lines 213-260). -/
def detectGo (cfg : DetectorConfig) (models : List String)
    (analyze : TweetData → String → Option AnalysisResult) :
    List TweetData → List EventTweetOut
  | [] => []
  | tweet :: rest =>
    let kw := quick_keyword_check cfg tweet.text
    if !kw.1 then detectGo cfg models analyze rest
    else
      let analysis_result :=
        (analyzeWithFallback analyze tweet models).getD fallbackAnalysis
      if acceptGate analysis_result then
        let extracted := extract_event_info tweet
        let info : EventInfo :=
          { detected_keywords := kw.2
            detected_events :=
              match analysis_result.event_type with
              | some s => if s ≠ "" then [s] else []
              | none => []
            event_type := analysis_result.event_type
            event_date := analysis_result.event_date
            participation_type := analysis_result.participation_type
            space_number := extracted.1
            circle_name := extracted.2 }
        { tweet := tweet, event_analysis := analysis_result, event_info := info }
          :: detectGo cfg models analyze rest
      else detectGo cfg models analyze rest

/-- EventDetector.detect_event_tweets (event_detector.py lines
204-263): returns an empty list when detection is disabled, otherwise
runs the keyword gate, the model-fallback loop and the acceptance gate
over every input post. -/
def detect_event_tweets (enabled : Bool) (cfg : DetectorConfig)
    (models : List String)
    (analyze : TweetData → String → Option AnalysisResult)
    (tweets : List TweetData) : List EventTweetOut :=
  if !enabled then [] else detectGo cfg models analyze tweets

/-- Outcome of a DatabaseManager call as seen by its caller:
`ok` is a normal return, `raised` models a Python exception escaping
the function (only `SQLAlchemyError` is caught by the source, so e.g. a
`ValueError` from date parsing propagates). -/
inductive DbResult (α : Type) where
  | ok (a : α)
  | raised
deriving Repr, DecidableEq

/-- Models `date_string.replace('Z', '+00:00')` applied in every save
operation before `datetime.fromisoformat` (database.py lines 206, 252,
503). -/
def replaceZ : List Char → List Char
  | [] => []
  | 'Z' :: rest => '+' :: '0' :: '0' :: ':' :: '0' :: '0' :: replaceZ rest
  | c :: rest => c :: replaceZ rest

/-- Models `datetime.fromisoformat(s.replace('Z', '+00:00'))`.
`fromisoformat` is standard-library code, not part of this repository;
we model the fragment the claims depend on: it succeeds on strings with
a well-formed `YYYY-MM-DD` prefix (returning the normalized string as
the stored timestamp) and raises `ValueError` (here: `none`) otherwise.
All date strings produced by the crawler are full ISO timestamps and
parse; a malformed date raises. -/
def parseTweetDate (date : String) : Option String :=
  let cs := replaceZ date.data
  match cs with
  | y1 :: y2 :: y3 :: y4 :: '-' :: m1 :: m2 :: '-' :: d1 :: d2 :: _ =>
    if y1.isDigit && y2.isDigit && y3.isDigit && y4.isDigit &&
       m1.isDigit && m2.isDigit && d1.isDigit && d2.isDigit then
      some (String.mk cs)
    else none
  | _ => none

/-- A row of the `all_tweets` table (database.py lines 22-40). -/
structure AllRow where
  id : String
  username : String
  display_name : String
  tweet_text : String
  tweet_date : String
  tweet_url : String
  media_urls : List String
  local_media : List String
  huggingface_urls : List String
  checked_for_event : Bool
deriving Repr, DecidableEq

/-- A row of the `event_tweets` table (database.py lines 43-72).  The
source stores `confidence_score` as `str(confidence)`; we keep the
numeric value. -/
structure EventRow where
  id : String
  username : String
  display_name : String
  tweet_text : String
  tweet_date : String
  tweet_url : String
  is_event_related : Bool
  event_type : Option String
  event_date : Option String
  participation_type : Option String
  space_number : Option String
  circle_name : Option String
  confidence_score : ℚ
  media_urls : List String
  local_media : List String
  analysis_result : Option AnalysisResult
  notified : Bool
deriving Repr, DecidableEq

/-- A row of the `log_only_tweets` table (database.py lines 75-88). -/
structure LogRow where
  id : String
  username : String
  display_name : String
  tweet_text : String
  tweet_date : String
  tweet_url : String
  media_urls : List String
  huggingface_urls : List String
  uploaded_to_hf : Bool
deriving Repr, DecidableEq

/-- The relational store of DatabaseManager: the three tables. -/
structure DB where
  all_tweets : List AllRow := []
  event_tweets : List EventRow := []
  log_only_tweets : List LogRow := []
deriving Repr, DecidableEq

/-- Whether the duplicate-check query at the head of a filter operation
raises `SQLAlchemyError` (fault injection for the `except` branch). -/
inductive DbFault where
  | ok
  | fail
deriving Repr, DecidableEq

/-- DatabaseManager.filter_new_tweets (database.py lines 150-183):
keep posts whose id is not yet in `all_tweets` (globally, ignoring the
username); if the query raises a database error, return the whole input
list (`return tweets` in the `except SQLAlchemyError` branch). -/
def filter_new_tweets (db : DB) (fault : DbFault) (tweets : List TweetData)
    (_username : String) : List TweetData :=
  match fault with
  | .fail => tweets
  | .ok =>
    let existing_ids := db.all_tweets.map (·.id)
    tweets.filter (fun t => !existing_ids.contains t.id)

/-- DatabaseManager.filter_log_only_tweets (database.py lines 447-480):
same shape against the `log_only_tweets` table. -/
def filter_log_only_tweets (db : DB) (fault : DbFault)
    (tweets : List TweetData) (_username : String) : List TweetData :=
  match fault with
  | .fail => tweets
  | .ok =>
    let existing_ids := db.log_only_tweets.map (·.id)
    tweets.filter (fun t => !existing_ids.contains t.id)

/-- The `AllTweets(...)` record constructor call in save_all_tweets
(database.py lines 201-212). -/
def mkAllRow (username : String) (t : TweetData) (d : String) : AllRow :=
  { id := t.id
    username := username
    display_name := t.display_name.getD username
    tweet_text := t.text
    tweet_date := d
    tweet_url := t.url
    media_urls := t.media
    local_media := t.local_media
    huggingface_urls := t.huggingface_urls
    checked_for_event := false }

/-- The per-tweet loop of save_all_tweets over the open session.  The
working list is the session's view of the table (pending adds are
visible to the in-loop existence query via autoflush); a date-parse
failure raises out of the loop before any commit. -/
def saveAllGo (username : String) (work : List AllRow) (saved : Nat) :
    List TweetData → DbResult (List AllRow × Nat)
  | [] => .ok (work, saved)
  | t :: rest =>
    if work.any (fun a => a.id == t.id) then
      saveAllGo username work saved rest
    else
      match parseTweetDate t.date with
      | none => .raised
      | some d => saveAllGo username (work ++ [mkAllRow username t d]) (saved + 1) rest

/-- DatabaseManager.save_all_tweets (database.py lines 185-225):
insert-if-absent of every post, one commit at the end.  When an
exception escapes the loop, the session is closed uncommitted, so the
table is unchanged and the exception propagates (`except` catches only
`SQLAlchemyError`, not the `ValueError` of `datetime.fromisoformat`). -/
def save_all_tweets (db : DB) (tweets : List TweetData) (username : String) :
    DB × DbResult Nat :=
  match saveAllGo username db.all_tweets 0 tweets with
  | .ok (rows, n) => ({ db with all_tweets := rows }, .ok n)
  | .raised => (db, .raised)

/-- The `LogOnlyTweet(...)` record constructor call in
save_log_only_tweets (database.py lines 498-508). -/
def mkLogRow (username : String) (t : TweetData) (d : String) : LogRow :=
  { id := t.id
    username := username
    display_name := t.display_name.getD username
    tweet_text := t.text
    tweet_date := d
    tweet_url := t.url
    media_urls := t.media
    huggingface_urls := t.huggingface_urls
    uploaded_to_hf := t.uploaded_to_hf }

/-- The per-tweet loop of save_log_only_tweets. -/
def saveLogGo (username : String) (work : List LogRow) (saved : Nat) :
    List TweetData → DbResult (List LogRow × Nat)
  | [] => .ok (work, saved)
  | t :: rest =>
    if work.any (fun a => a.id == t.id) then
      saveLogGo username work saved rest
    else
      match parseTweetDate t.date with
      | none => .raised
      | some d => saveLogGo username (work ++ [mkLogRow username t d]) (saved + 1) rest

/-- DatabaseManager.save_log_only_tweets (database.py lines 482-522). -/
def save_log_only_tweets (db : DB) (tweets : List TweetData)
    (username : String) : DB × DbResult Nat :=
  match saveLogGo username db.log_only_tweets 0 tweets with
  | .ok (rows, n) => ({ db with log_only_tweets := rows }, .ok n)
  | .raised => (db, .raised)

/-- Input to save_event_tweets: the post dict, which after
detect_event_tweets carries an `event_analysis` key; the source reads
it with `tweet_data.get('event_analysis', {})`. -/
structure EventTweetIn where
  tweet : TweetData
  event_analysis : Option AnalysisResult := none
deriving Repr, DecidableEq

/-- Repackages a detector output for save_event_tweets, as main.py
passes the detector's list straight to the database layer. -/
def toEventIn (o : EventTweetOut) : EventTweetIn :=
  { tweet := o.tweet, event_analysis := some o.event_analysis }

/-- The `EventTweet(...)` record constructor call plus the
space-number/circle-name extraction in save_event_tweets (database.py
lines 247-269). -/
def mkEventRow (username : String) (t : EventTweetIn) (d : String) : EventRow :=
  let event_info := t.event_analysis.getD {}
  let extracted := extract_event_info t.tweet
  { id := t.tweet.id
    username := username
    display_name := t.tweet.display_name.getD username
    tweet_text := t.tweet.text
    tweet_date := d
    tweet_url := t.tweet.url
    is_event_related := true
    event_type := event_info.event_type
    event_date := event_info.event_date
    participation_type := event_info.participation_type
    space_number := extracted.1
    circle_name := extracted.2
    confidence_score := event_info.confidence.getD 1
    media_urls := t.tweet.media
    local_media := t.tweet.local_media
    analysis_result := t.event_analysis
    notified := false }

/-- The `checked_for_event` update of save_event_tweets (database.py
lines 274-279): the matching `all_tweets` row, when it exists, has its
flag set; when no row matches, nothing happens (`if all_tweet:`). -/
def setChecked (rows : List AllRow) (tweet_id : String) : List AllRow :=
  rows.map (fun a =>
    if a.id == tweet_id then { a with checked_for_event := true } else a)

/-- The per-tweet loop of save_event_tweets over the open session,
carrying the session's view of both touched tables. -/
def saveEventGo (username : String) (workEvent : List EventRow)
    (workAll : List AllRow) :
    List EventTweetIn → DbResult (List EventRow × List AllRow)
  | [] => .ok (workEvent, workAll)
  | t :: rest =>
    if workEvent.any (fun e => e.id == t.tweet.id) then
      saveEventGo username workEvent workAll rest
    else
      match parseTweetDate t.tweet.date with
      | none => .raised
      | some d =>
        saveEventGo username (workEvent ++ [mkEventRow username t d])
          (setChecked workAll t.tweet.id) rest

/-- DatabaseManager.save_event_tweets (database.py lines 227-288):
insert-if-absent into `event_tweets`, flipping the matching
`all_tweets` row's `checked_for_event` flag per inserted post, one
commit at the end; a date-parse `ValueError` escapes uncommitted. -/
def save_event_tweets (db : DB) (tweets : List EventTweetIn)
    (username : String) : DB × DbResult Unit :=
  match saveEventGo username db.event_tweets db.all_tweets tweets with
  | .ok (ev, al) => ({ db with event_tweets := ev, all_tweets := al }, .ok ())
  | .raised => (db, .raised)

/-- DatabaseManager.update_log_only_tweet_hf_urls (database.py lines
524-545): set the archive URLs and the uploaded flag of the row with
the given id (ids are a primary key, so at most one row matches). -/
def update_log_only_tweet_hf_urls (db : DB) (tweet_id : String)
    (urls : List String) : DB :=
  { db with
    log_only_tweets := db.log_only_tweets.map (fun r =>
      if r.id == tweet_id then
        { r with huggingface_urls := urls, uploaded_to_hf := true }
      else r) }

/-- Observable actions of a DiscordNotifier send operation: the
disabled-path debug log, or the construction-and-execution of the
webhook (`webhook.execute()`, an HTTP POST attempt). -/
inductive NotifyAction where
  | logDebugSkip
  | webhookExecute
deriving Repr, DecidableEq

/-- DiscordNotifier.send_notification (discord_notifier.py lines
118-168): when `self.enabled` is false (no webhook URL configured) it
logs at debug level and returns; otherwise it builds the webhook plus
embeds and executes it through `_execute_with_rate_limit`. -/
def send_notification (enabled : Bool) (_tweet : TweetData) :
    List NotifyAction :=
  if !enabled then [.logDebugSkip] else [.webhookExecute]

/-- DiscordNotifier.send_batch_notification (discord_notifier.py lines
170-212): returns early only for an empty input list; it performs no
`self.enabled` check, so for a non-empty batch it always constructs the
webhook (with the possibly-absent URL) and executes it. -/
def send_batch_notification (_enabled : Bool) (tweets : List TweetData) :
    List NotifyAction :=
  if tweets.isEmpty then [] else [.webhookExecute]

/-- DiscordNotifier.send_error_notification (discord_notifier.py lines
214-239): performs no `self.enabled` check; it always constructs the
webhook and calls `webhook.execute()`. -/
def send_error_notification (_enabled : Bool) (_error_message : String) :
    List NotifyAction :=
  [.webhookExecute]

/-- TwitterMonitor.download_tweet_images (twitter_monitor.py lines
220-222): a stub that downloads nothing — "gallery-dl handles all
media, this function is unnecessary". -/
def download_tweet_images (_tweet : TweetData) : List String := []

/-- TwitterMonitor.download_tweet_videos (twitter_monitor.py lines
224-226): the same stub for videos. -/
def download_tweet_videos (_tweet : TweetData) : List String := []

/-- The media-download loop of EventMonitor.run_once (main.py lines
158-174): per new post, collect the image downloads (when the post has
media) and the video downloads (when it has videos) and store the
concatenation in `local_media`. -/
def run_once_download_media (new_tweets : List TweetData) : List TweetData :=
  new_tweets.map (fun tweet =>
    let all_media_paths :=
      (if !tweet.media.isEmpty then download_tweet_images tweet else []) ++
      (if !tweet.videos.isEmpty then download_tweet_videos tweet else [])
    { tweet with local_media := all_media_paths })

/-- The database interaction of LogOnlyHFUploader.process_tweets
(log_only_hf_uploader.py lines 323-361): per post, the external
download/upload produces a list of archive URLs (parameter `urlsOf`);
when it is non-empty, `update_log_only_tweet_hf_urls` is called. -/
def uploaderGo (urlsOf : TweetData → List String) (d : DB) :
    List TweetData → DB
  | [] => d
  | t :: rest =>
    let hf_urls := urlsOf t
    if hf_urls.isEmpty then uploaderGo urlsOf d rest
    else uploaderGo urlsOf (update_log_only_tweet_hf_urls d t.id hf_urls) rest

/-- LogOnlyHFUploader.process_tweets (log_only_hf_uploader.py lines
306-363): a no-op when the uploader is disabled. -/
def uploader_process_tweets (enabled : Bool)
    (urlsOf : TweetData → List String) (db : DB) (tweets : List TweetData) :
    DB :=
  if !enabled then db else uploaderGo urlsOf db tweets

/-- Pipeline stages observable from the orchestrator's account loop. -/
inductive Action where
  | filterLogOnly
  | saveLogOnly (n : Nat)
  | uploadLogOnly
  | filterNew
  | saveAll (n : Nat)
  | saveEvent
  | notifyDiscord
  | hydrusImport
deriving Repr, DecidableEq

/-- EventMonitor._process_log_only_account (main.py lines 332-363),
reached from run_once when `account_type == 'log'` (main.py lines
137-140): filter against the log-only table, persist to the log-only
table, hand the new posts to the Log-Only Uploader when it is enabled.
The third component records whether a save exception propagated (in
which case the upload step is never reached). -/
def process_log_only_account (db : DB) (fault : DbFault)
    (uploaderEnabled : Bool) (urlsOf : TweetData → List String)
    (tweets : List TweetData) (username : String) :
    DB × List Action × Bool :=
  let new_tweets := filter_log_only_tweets db fault tweets username
  if new_tweets.isEmpty then (db, [.filterLogOnly], false)
  else
    match save_log_only_tweets db new_tweets username with
    | (db1, .raised) => (db1, [.filterLogOnly, .saveLogOnly 0], true)
    | (db1, .ok saved_count) =>
      if uploaderEnabled then
        (uploader_process_tweets true urlsOf db1 new_tweets,
         [.filterLogOnly, .saveLogOnly saved_count, .uploadLogOnly], false)
      else
        (db1, [.filterLogOnly, .saveLogOnly saved_count], false)

/-- Strips a literal pattern fragment from the head of the text,
returning the remainder on success (regex literal matching). -/
def stripLit : List Char → List Char → Option (List Char)
  | [], hay => some hay
  | _ :: _, [] => none
  | l :: ls, h :: hs => if l == h then stripLit ls hs else none

/-- Numeric value of a matched `\d+` group. -/
def digitsToNat (ds : List Char) : Nat :=
  ds.foldl (fun n c => n * 10 + (c.toNat - '0'.toNat)) 0

/-- Models `re.search(pattern, msg)`: try the position matcher at every
start position, leftmost match wins. -/
def reSearch {α : Type} (m : List Char → Option α) : List Char → Option α
  | [] => m []
  | c :: cs =>
    match m (c :: cs) with
    | some r => some r
    | none => reSearch m (c :: cs).tail

/-- Position matcher for the one-group patterns
`retry in (\d+) seconds|minutes|hours` of
BackupManager._extract_wait_time (backup_manager.py lines 859-861).
Because these patterns have a single group, the source's
`match.group(2) if match.lastindex > 1 else "seconds"` always yields
the unit string "seconds" for them. -/
def matchRetryIn (unitWord : List Char) (cs : List Char) :
    Option (Nat × String) :=
  match stripLit "retry in ".data cs with
  | none => none
  | some r1 =>
    let ds := r1.takeWhile Char.isDigit
    if ds.isEmpty then none
    else
      match stripLit (' ' :: unitWord) (r1.drop ds.length) with
      | none => none
      | some _ => some (digitsToNat ds, "seconds")

/-- The alternation `(minutes?|hours?|seconds?)`: alternatives in regex
order, the optional trailing `s` taken greedily. -/
def unitAlt (cs : List Char) : Option String :=
  ["minutes", "minute", "hours", "hour", "seconds", "second"].firstM
    (fun u => ((stripLit u.data cs).map (fun _ => u)))

/-- Position matcher for
`you can retry this action in (\d+) (minutes?|hours?|seconds?)`
(backup_manager.py line 862). -/
def matchYouCanRetry (cs : List Char) : Option (Nat × String) :=
  match stripLit "you can retry this action in ".data cs with
  | none => none
  | some r1 =>
    let ds := r1.takeWhile Char.isDigit
    if ds.isEmpty then none
    else
      match r1.drop ds.length with
      | ' ' :: r2 => (unitAlt r2).map (fun u => (digitsToNat ds, u))
      | _ => none

/-- Position matcher for `(\d+)\s+(minutes?|hours?|seconds?)`
(backup_manager.py line 863). -/
def matchBareAmount (cs : List Char) : Option (Nat × String) :=
  let ds := cs.takeWhile Char.isDigit
  if ds.isEmpty then none
  else
    let r1 := cs.drop ds.length
    let ws := r1.takeWhile Char.isWhitespace
    if ws.isEmpty then none
    else (unitAlt (r1.drop ws.length)).map (fun u => (digitsToNat ds, u))

/-- The unit-to-seconds conversion of _extract_wait_time
(backup_manager.py lines 872-877): `"hour" in unit`, then
`"minute" in unit`, else the raw value. -/
def unitToWait (v : Nat) (unit : String) : Nat :=
  if strIncl unit "hour" then v * 3600
  else if strIncl unit "minute" then v * 60
  else v

/-- BackupManager._extract_wait_time (backup_manager.py lines 853-880):
the five patterns are tried in order with `re.IGNORECASE` (modelled by
lowercasing the message; the patterns are lowercase ASCII); the first
match anywhere in the message wins; no match leaves the one-hour
default; a one-second buffer is always added. -/
def extract_wait_time (error_msg : String) : Nat :=
  let msg := (strLower error_msg).data
  let found : Option (Nat × String) :=
    (reSearch (matchRetryIn "seconds".data) msg).orElse (fun _ =>
    (reSearch (matchRetryIn "minutes".data) msg).orElse (fun _ =>
    (reSearch (matchRetryIn "hours".data) msg).orElse (fun _ =>
    (reSearch matchYouCanRetry msg).orElse (fun _ =>
    reSearch matchBareAmount msg))))
  let wait_time :=
    match found with
    | none => 3600
    | some (v, u) => unitToWait v u
  wait_time + 1

/-! Concrete example inputs used by the individual verification
results below. -/

/-- An event-detection configuration: include keyword 参加
("participate"), exclude keyword 購入しました ("purchased"). -/
def cfgC1 : DetectorConfig := ⟨["参加"], ["購入しました"]⟩

/-- A post announcing participation, passing the Stage-1 keyword
pre-filter. -/
def tweetC1 : TweetData :=
  { id := "1001"
    text := "コミケに参加します"
    date := "2024-05-01T12:00:00Z"
    url := "https://twitter.com/alice/status/1001"
    username := "alice" }

/-- C1: when every configured model fails (`analyze` returns nothing
for every model), the fallback analysis dict with confidence 0.5 and
the keyword-match-only reason is built (event_detector.py lines
230-234), but the acceptance gate `confidence >= 0.6` is false at 0.5,
so detect_event_tweets drops the post: the returned event-post list is
empty.  The claimed acceptance of such posts does not happen. -/
theorem detect_fallback_post_dropped :
    detect_event_tweets true cfgC1 ["gpt-4o", "gemini-2.0-flash-exp"]
        (fun _ _ => none) [tweetC1] = [] ∧
      (quick_keyword_check cfgC1 tweetC1.text).1 = true ∧
      fallbackAnalysis.confidence = some (mkRat 1 2) ∧
      acceptGate fallbackAnalysis = false := by
  decide

/-- A post with one attached image. -/
def tweetC2 : TweetData :=
  { id := "900"
    text := "photo"
    date := "2024-06-01T00:00:00Z"
    url := "https://twitter.com/bob/status/900"
    username := "bob"
    display_name := some "Bob"
    media := ["https://pbs.twimg.com/media/abc.jpg"] }

/-- C2 counterexample: a post with one attached image yields no
downloaded path at all from the crawler's media-download operations —
they are stubs returning the empty list, so no
`images/<display_name>/<id>_<index>.jpg` path is produced. -/
theorem download_returns_no_paths :
    download_tweet_images tweetC2 = [] ∧
      download_tweet_videos tweetC2 = [] ∧
      tweetC2.media.length = 1 := by
  decide

/-- C2 amended: download_tweet_images and download_tweet_videos
download nothing and return the empty list for every post, and the
run_once media loop therefore sets every new post's `local_media` to
the empty list. -/
theorem download_media_noop (tweets : List TweetData) (t : TweetData) :
    download_tweet_images t = [] ∧
      download_tweet_videos t = [] ∧
      (run_once_download_media tweets).map (·.local_media) =
        tweets.map (fun _ => ([] : List String)) := by
  refine ⟨rfl, rfl, ?_⟩
  induction tweets with
  | nil => rfl
  | cons h tl ih =>
    simpa [run_once_download_media, download_tweet_images,
      download_tweet_videos] using ih

/-- A post used for the notifier counterexample. -/
def tweetC4 : TweetData :=
  { id := "77"
    text := "イベント告知"
    date := "2024-07-07T07:00:00Z"
    url := "https://twitter.com/carol/status/77"
    username := "carol" }

/-- C4 counterexample: with no webhook URL configured (disabled
notifier), a non-empty batch notification and an error notification
both still construct and execute the webhook — they are not no-ops. -/
theorem notify_batch_executes_when_disabled :
    send_batch_notification false [tweetC4] = [.webhookExecute] ∧
      send_error_notification false "LLM failure" = [.webhookExecute] := by
  decide

/-- C4 amended: with no webhook URL configured, send_notification is a
no-op that only emits a debug log, but send_batch_notification (on any
non-empty input) and send_error_notification perform the webhook
execution regardless of the disabled flag. -/
theorem notifier_disabled_behavior (t : TweetData) (ts : List TweetData)
    (msg : String) :
    send_notification false t = [.logDebugSkip] ∧
      send_batch_notification false (t :: ts) = [.webhookExecute] ∧
      send_error_notification false msg = [.webhookExecute] :=
  ⟨rfl, rfl, rfl⟩

/-- C7: the rate-limit wait extraction computes 2*3600 + 1 seconds for
an error text containing "retry this action in about 2 hours" (matched
by the bare `(\d+)\s+(minutes?|hours?)` pattern) and the default
3600 + 1 seconds for an error text with no recognizable duration
phrase. -/
theorem rate_limit_wait_extraction :
    extract_wait_time
        "You have exceeded rate limits, retry this action in about 2 hours to continue"
        = 2 * 3600 + 1 ∧
      extract_wait_time "Internal server error" = 3600 + 1 := by
  decide

/-- C10: when the duplicate-check query raises a database error, both
filter operations return the whole input list unchanged (fail open):
every input post is treated as new downstream. -/
theorem filter_fails_open (db : DB) (ts : List TweetData) (u : String) :
    filter_new_tweets db .fail ts u = ts ∧
      filter_log_only_tweets db .fail ts u = ts :=
  ⟨rfl, rfl⟩

/-- The uploader's database loop never touches the all-posts or
event-posts tables: update_log_only_tweet_hf_urls rewrites only the
log-only table. -/
theorem uploaderGo_frame (urlsOf : TweetData → List String)
    (ts : List TweetData) (d : DB) :
    (uploaderGo urlsOf d ts).all_tweets = d.all_tweets ∧
      (uploaderGo urlsOf d ts).event_tweets = d.event_tweets := by
  induction ts generalizing d with
  | nil => exact ⟨rfl, rfl⟩
  | cons t rest ih =>
    simp only [uploaderGo]
    by_cases h : (urlsOf t).isEmpty
    · simpa [h] using ih d
    · simpa [h, update_log_only_tweet_hf_urls] using
        ih (update_log_only_tweet_hf_urls d t.id (urlsOf t))

/-- save_log_only_tweets writes only the log-only table. -/
theorem save_log_only_tweets_frame (db : DB) (ts : List TweetData)
    (u : String) :
    (save_log_only_tweets db ts u).1.all_tweets = db.all_tweets ∧
      (save_log_only_tweets db ts u).1.event_tweets = db.event_tweets := by
  unfold save_log_only_tweets
  rcases saveLogGo u db.log_only_tweets 0 ts with ⟨rows, n⟩ | _ <;>
    exact ⟨rfl, rfl⟩

/-- C6: the log-only account pipeline never writes to the event-posts
or all-posts tables, and its observable stage trace consists only of
the log-only filter, the log-only save and the log-only upload hand-off
— no event save, no chat notification, no media-tagging import — for
every prior database state, fault injection, uploader configuration,
upload outcome and input post set. -/
theorem log_only_isolation (db : DB) (fault : DbFault)
    (uploaderEnabled : Bool) (urlsOf : TweetData → List String)
    (tweets : List TweetData) (username : String) :
    ((process_log_only_account db fault uploaderEnabled urlsOf tweets
        username).1.event_tweets = db.event_tweets) ∧
      ((process_log_only_account db fault uploaderEnabled urlsOf tweets
        username).1.all_tweets = db.all_tweets) ∧
      (∀ a ∈ (process_log_only_account db fault uploaderEnabled urlsOf tweets
          username).2.1,
        a = Action.filterLogOnly ∨ (∃ n, a = Action.saveLogOnly n) ∨
          a = Action.uploadLogOnly) := by
  unfold process_log_only_account
  by_cases hempty : (filter_log_only_tweets db fault tweets username).isEmpty
  · simp [hempty]
  · rcases hsave : save_log_only_tweets db
        (filter_log_only_tweets db fault tweets username) username with ⟨db1, r⟩
    have hframe := save_log_only_tweets_frame db
      (filter_log_only_tweets db fault tweets username) username
    rw [hsave] at hframe
    rcases r with n | _
    · by_cases hup : uploaderEnabled
      · have hupframe := uploaderGo_frame urlsOf
          (filter_log_only_tweets db fault tweets username) db1
        refine ⟨?_, ?_, ?_⟩
        · simpa [hempty, hsave, hup, uploader_process_tweets, hupframe.2]
            using hframe.2
        · simpa [hempty, hsave, hup, uploader_process_tweets, hupframe.1]
            using hframe.1
        · intro a ha
          simp [hempty, hsave, hup] at ha
          rcases ha with rfl | rfl | rfl
          · exact Or.inl rfl
          · exact Or.inr (Or.inl ⟨n, rfl⟩)
          · exact Or.inr (Or.inr rfl)
      · refine ⟨?_, ?_, ?_⟩
        · simpa [hempty, hsave, hup] using hframe.2
        · simpa [hempty, hsave, hup] using hframe.1
        · intro a ha
          simp [hempty, hsave, hup] at ha
          rcases ha with rfl | rfl
          · exact Or.inl rfl
          · exact Or.inr (Or.inl ⟨n, rfl⟩)
    · refine ⟨?_, ?_, ?_⟩
      · simpa [hempty, hsave] using hframe.2
      · simpa [hempty, hsave] using hframe.1
      · intro a ha
        simp [hempty, hsave] at ha
        rcases ha with rfl | rfl
        · exact Or.inl rfl
        · exact Or.inr (Or.inl ⟨0, rfl⟩)

/-- After a successful save_all_tweets loop, the session's final table
view contains every row of the initial view and a row for every input
post's id. -/
theorem saveAllGo_mem (u : String) (ts : List TweetData)
    (work : List AllRow) (s : Nat) (rows : List AllRow) (n : Nat)
    (h : saveAllGo u work s ts = .ok (rows, n)) :
    (∀ a ∈ work, a ∈ rows) ∧ (∀ t ∈ ts, ∃ r ∈ rows, r.id = t.id) := by
  induction ts generalizing work s with
  | nil =>
    simp only [saveAllGo, DbResult.ok.injEq, Prod.mk.injEq] at h
    obtain ⟨h1, -⟩ := h
    subst h1
    exact ⟨fun a ha => ha, by simp⟩
  | cons t rest ih =>
    rw [saveAllGo] at h
    by_cases hex : work.any (fun a => a.id == t.id)
    · rw [if_pos hex] at h
      obtain ⟨hw, hts⟩ := ih _ _ h
      refine ⟨hw, fun t' ht' => ?_⟩
      rcases List.mem_cons.mp ht' with rfl | h'
      · obtain ⟨a, ha, haid⟩ := List.any_eq_true.mp hex
        exact ⟨a, hw a ha, by simpa using haid⟩
      · exact hts t' h'
    · rw [if_neg hex] at h
      cases hp : parseTweetDate t.date with
      | none => rw [hp] at h; cases h
      | some d =>
        rw [hp] at h
        obtain ⟨hw, hts⟩ := ih _ _ h
        refine ⟨fun a ha => hw a (by simp [ha]), fun t' ht' => ?_⟩
        rcases List.mem_cons.mp ht' with rfl | h'
        · exact ⟨mkAllRow u t' d, hw _ (by simp), rfl⟩
        · exact hts t' h'

/-- When every input post's id is already present in the session's
table view, the save_all_tweets loop skips everything: no change and a
saved count equal to the accumulator. -/
theorem saveAllGo_skips (u : String) (ts : List TweetData)
    (work : List AllRow) (s : Nat)
    (h : ∀ t ∈ ts, ∃ r ∈ work, r.id = t.id) :
    saveAllGo u work s ts = .ok (work, s) := by
  induction ts with
  | nil => rfl
  | cons t rest ih =>
    have hex : work.any (fun a => a.id == t.id) = true := by
      obtain ⟨r, hr, hid⟩ := h t (by simp)
      exact List.any_eq_true.mpr ⟨r, hr, by simpa using hid⟩
    rw [saveAllGo, if_pos hex]
    exact ih (fun t' ht' => h t' (by simp [ht']))

/-- C8: save_all_tweets is idempotent — re-running it with the same
post list and username leaves the all-posts table exactly as after the
first call, and whenever the first call returns normally (with any
saved count), the second call returns a saved count of 0. -/
theorem save_all_tweets_idempotent (db : DB) (ts : List TweetData)
    (u : String) :
    (save_all_tweets (save_all_tweets db ts u).1 ts u).1 =
        (save_all_tweets db ts u).1 ∧
      ∀ n, (save_all_tweets db ts u).2 = .ok n →
        (save_all_tweets (save_all_tweets db ts u).1 ts u).2 = .ok 0 := by
  rcases hgo : saveAllGo u db.all_tweets 0 ts with ⟨rows, n⟩ | _
  · have hfst : save_all_tweets db ts u = ({ db with all_tweets := rows }, .ok n) := by
      simp [save_all_tweets, hgo]
    have hids : ∀ t ∈ ts, ∃ r ∈ rows, r.id = t.id :=
      (saveAllGo_mem u ts db.all_tweets 0 rows n hgo).2
    have hsnd : saveAllGo u rows 0 ts = .ok (rows, 0) :=
      saveAllGo_skips u ts rows 0 hids
    have hfst1 : (save_all_tweets db ts u).1 = { db with all_tweets := rows } := by
      rw [hfst]
    constructor
    · rw [hfst1]
      simp [save_all_tweets, hsnd]
    · intro n' _
      rw [hfst1]
      simp [save_all_tweets, hsnd]
  · have hfst : save_all_tweets db ts u = (db, .raised) := by
      simp [save_all_tweets, hgo]
    have hfst1 : (save_all_tweets db ts u).1 = db := by rw [hfst]
    constructor
    · rw [hfst1]
      exact hfst1
    · intro n' hn'
      rw [hfst] at hn'
      cases hn'

/-- A fresh post for the idempotence witness. -/
def tweetC8 : TweetData :=
  { id := "801"
    text := "新刊できました"
    date := "2024-08-10T09:00:00Z"
    url := "https://twitter.com/frank/status/801"
    username := "frank" }

/-- C8 witness: saving the same one-post list twice into an empty
database saves one row the first time and zero rows the second time. -/
theorem save_all_tweets_idempotent_witness :
    (save_all_tweets {} [tweetC8] "frank").2 = .ok 1 ∧
      (save_all_tweets (save_all_tweets {} [tweetC8] "frank").1
        [tweetC8] "frank").2 = .ok 0 :=
  ⟨by decide, (save_all_tweets_idempotent {} [tweetC8] "frank").2 1 (by decide)⟩

/-- A post with a well-formed date. -/
def tweetC9good : TweetData :=
  { id := "501"
    text := "おはようございます"
    date := "2024-01-02T03:04:05Z"
    url := "https://twitter.com/dave/status/501"
    username := "dave" }

/-- A post whose date field cannot be parsed. -/
def tweetC9bad : TweetData :=
  { id := "502"
    text := "明日です"
    date := "no date"
    url := "https://twitter.com/dave/status/502"
    username := "dave" }

/-- C9 counterexample: a post list containing a post with an
unparseable date makes save_all_tweets raise to the caller
(`datetime.fromisoformat` raises `ValueError`, which the
`except SQLAlchemyError` handler does not catch); the already-processed
first post is rolled back, so the table is left unchanged — but the
call does not return normally, contradicting "never raises". -/
theorem save_raises_on_bad_date :
    save_all_tweets {} [tweetC9good, tweetC9bad] "dave" = ({}, .raised) := by
  decide

/-- A database with one unrelated pre-existing row. -/
def dbC9 : DB :=
  { all_tweets :=
      [{ id := "400"
         username := "dave"
         display_name := "Dave"
         tweet_text := "old"
         tweet_date := "2023-01-01T00:00:00+00:00"
         tweet_url := "https://twitter.com/dave/status/400"
         media_urls := []
         local_media := []
         huggingface_urls := []
         checked_for_event := false }] }

/-- C9 amended: the save operations commit their whole statement group
atomically; when an exception escapes the per-post loop (e.g. the
date-parse `ValueError`), the uncommitted session is discarded, so the
tables are exactly as before the call — but the exception propagates to
the caller instead of being swallowed. -/
theorem db_save_rollback (db : DB) (ts : List TweetData)
    (es : List EventTweetIn) (u : String) :
    ((save_all_tweets db ts u).2 = .raised →
        (save_all_tweets db ts u).1 = db) ∧
      ((save_log_only_tweets db ts u).2 = .raised →
        (save_log_only_tweets db ts u).1 = db) ∧
      ((save_event_tweets db es u).2 = .raised →
        (save_event_tweets db es u).1 = db) := by
  refine ⟨?_, ?_, ?_⟩
  · rcases hgo : saveAllGo u db.all_tweets 0 ts with ⟨rows, n⟩ | _ <;>
      simp [save_all_tweets, hgo]
  · rcases hgo : saveLogGo u db.log_only_tweets 0 ts with ⟨rows, n⟩ | _ <;>
      simp [save_log_only_tweets, hgo]
  · rcases hgo : saveEventGo u db.event_tweets db.all_tweets es with ⟨ev, al⟩ | _ <;>
      simp [save_event_tweets, hgo]

/-- C9 witness: on the concrete failing input, the rollback theorem
yields an unchanged table after the raising call (the parseable first
post was not persisted either). -/
theorem db_save_rollback_witness :
    (save_all_tweets dbC9 [tweetC9good, tweetC9bad] "dave").1 = dbC9 :=
  (db_save_rollback dbC9 [tweetC9good, tweetC9bad] [] "dave").1 (by decide)

/-- A post passing the keyword pre-filter whose id is absent from the
all-posts table. -/
def tweetC3 : TweetData :=
  { id := "301"
    text := "冬コミ参加します"
    date := "2024-12-01T00:00:00Z"
    url := "https://twitter.com/eve/status/301"
    username := "eve" }

/-- A high-confidence accepted classifier result. -/
def analysisC3 : AnalysisResult :=
  { is_event_related := some true, confidence := some (mkRat 9 10) }

/-- C3 counterexample: calling save_event_tweets on an empty database
with an event post whose id is not in the all-posts table inserts the
event row but creates no all-posts row, so the event-posts table holds
an id with no matching all-posts row (`if all_tweet:` silently skips
the flag update when the row is absent). -/
theorem event_subset_counterexample :
    ¬ (∀ e ∈ (save_event_tweets {}
          [{ tweet := tweetC3, event_analysis := some analysisC3 }]
          "eve").1.event_tweets,
        ∃ a ∈ (save_event_tweets {}
            [{ tweet := tweetC3, event_analysis := some analysisC3 }]
            "eve").1.all_tweets,
          a.id = e.id ∧ a.checked_for_event = true) := by
  decide

/-- Every row of a table keeps its id under the `checked_for_event`
update, and a row that already has the flag (or whose id is the updated
one) has the flag afterwards. -/
theorem setChecked_mem (rows : List AllRow) (tid : String) (a : AllRow)
    (ha : a ∈ rows) :
    ∃ b ∈ setChecked rows tid, b.id = a.id ∧
      ((a.checked_for_event = true ∨ a.id = tid) →
        b.checked_for_event = true) := by
  refine ⟨if a.id == tid then { a with checked_for_event := true } else a,
    ?_, ?_, ?_⟩
  · have := List.mem_map_of_mem
      (fun r => if r.id == tid then { r with checked_for_event := true } else r) ha
    simpa [setChecked] using this
  · by_cases h : a.id == tid <;> simp [h]
  · intro hc
    by_cases h : (a.id == tid) = true
    · simp [h]
    · have hne : a.id ≠ tid := by simpa using h
      rcases hc with hc | hc
      · simpa [h] using hc
      · exact absurd hc hne

/-- The invariant-preservation core of save_event_tweets: if the
session's event view only holds ids whose all-posts row has the flag,
and every remaining input id has an all-posts row, then a successful
run of the loop preserves the invariant. -/
theorem saveEventGo_invariant (u : String) (ts : List EventTweetIn)
    (workEvent : List EventRow) (workAll : List AllRow)
    (ev : List EventRow) (al : List AllRow)
    (h : saveEventGo u workEvent workAll ts = .ok (ev, al))
    (hinv : ∀ e ∈ workEvent, ∃ a ∈ workAll,
      a.id = e.id ∧ a.checked_for_event = true)
    (hpresent : ∀ t ∈ ts, ∃ a ∈ workAll, a.id = t.tweet.id) :
    ∀ e ∈ ev, ∃ a ∈ al, a.id = e.id ∧ a.checked_for_event = true := by
  induction ts generalizing workEvent workAll with
  | nil =>
    simp only [saveEventGo, DbResult.ok.injEq, Prod.mk.injEq] at h
    obtain ⟨h1, h2⟩ := h
    subst h1; subst h2
    exact hinv
  | cons t rest ih =>
    rw [saveEventGo] at h
    by_cases hex : workEvent.any (fun e => e.id == t.tweet.id)
    · rw [if_pos hex] at h
      exact ih _ _ h hinv (fun t' ht' => hpresent t' (by simp [ht']))
    · rw [if_neg hex] at h
      cases hp : parseTweetDate t.tweet.date with
      | none => rw [hp] at h; cases h
      | some d =>
        rw [hp] at h
        refine ih _ _ h ?_ ?_
        · intro e he
          rcases List.mem_append.mp he with he | he
          · obtain ⟨a, ha, haid, hafl⟩ := hinv e he
            obtain ⟨b, hb, hbid, hbfl⟩ :=
              setChecked_mem workAll t.tweet.id a ha
            exact ⟨b, hb, hbid.trans haid, hbfl (Or.inl hafl)⟩
          · obtain rfl := List.mem_singleton.mp he
            obtain ⟨a, ha, haid⟩ := hpresent t (by simp)
            obtain ⟨b, hb, hbid, hbfl⟩ :=
              setChecked_mem workAll t.tweet.id a ha
            exact ⟨b, hb, hbid.trans haid, hbfl (Or.inr haid)⟩
        · intro t' ht'
          obtain ⟨a, ha, haid⟩ := hpresent t' (by simp [ht'])
          obtain ⟨b, hb, hbid, -⟩ := setChecked_mem workAll t.tweet.id a ha
          exact ⟨b, hb, hbid.trans haid⟩

/-- C3 amended: after save_event_tweets, every row of the event-posts
table has a matching all-posts row with `checked_for_event = true`,
provided the prior state already satisfied this invariant and every
input post's id was already present in the all-posts table (the call
does not create missing all-posts rows, so the unconditional form
fails — see the counterexample). -/
theorem save_event_tweets_invariant (db : DB) (ts : List EventTweetIn)
    (u : String)
    (hinv : ∀ e ∈ db.event_tweets, ∃ a ∈ db.all_tweets,
      a.id = e.id ∧ a.checked_for_event = true)
    (hpresent : ∀ t ∈ ts, ∃ a ∈ db.all_tweets, a.id = t.tweet.id) :
    ∀ e ∈ (save_event_tweets db ts u).1.event_tweets,
      ∃ a ∈ (save_event_tweets db ts u).1.all_tweets,
        a.id = e.id ∧ a.checked_for_event = true := by
  rcases hgo : saveEventGo u db.event_tweets db.all_tweets ts with ⟨ev, al⟩ | _
  · have : save_event_tweets db ts u =
        ({ db with event_tweets := ev, all_tweets := al }, .ok ()) := by
      simp [save_event_tweets, hgo]
    rw [this]
    exact saveEventGo_invariant u ts db.event_tweets db.all_tweets ev al
      hgo hinv hpresent
  · have : save_event_tweets db ts u = (db, .raised) := by
      simp [save_event_tweets, hgo]
    rw [this]
    exact hinv

/-- A post whose id already has an all-posts row. -/
def tweetC3w : TweetData :=
  { id := "311"
    text := "例大祭参加します"
    date := "2024-10-20T00:00:00Z"
    url := "https://twitter.com/eve/status/311"
    username := "eve" }

/-- A database holding the all-posts row for tweetC3w, not yet checked
for events. -/
def dbC3w : DB :=
  { all_tweets :=
      [{ id := "311"
         username := "eve"
         display_name := "Eve"
         tweet_text := "例大祭参加します"
         tweet_date := "2024-10-20T00:00:00+00:00"
         tweet_url := "https://twitter.com/eve/status/311"
         media_urls := []
         local_media := []
         huggingface_urls := []
         checked_for_event := false }] }

/-- C3 witness: on a database already holding the post's all-posts row,
the amended invariant theorem applies and the event-subset invariant
holds after the save (stated as a closed Boolean check over the
concrete result tables). -/
theorem save_event_tweets_invariant_witness :
    (save_event_tweets dbC3w
        [{ tweet := tweetC3w, event_analysis := some analysisC3 }]
        "eve").1.event_tweets.all (fun e =>
      (save_event_tweets dbC3w
          [{ tweet := tweetC3w, event_analysis := some analysisC3 }]
          "eve").1.all_tweets.any (fun a =>
        a.id == e.id && a.checked_for_event)) = true := by
  have h := save_event_tweets_invariant dbC3w
    [{ tweet := tweetC3w, event_analysis := some analysisC3 }] "eve"
    (by decide) (by decide)
  rw [List.all_eq_true]
  intro e he
  obtain ⟨a, ha, haid, hafl⟩ := h e he
  exact List.any_eq_true.mpr ⟨a, ha, by simp [haid, hafl]⟩

/-- A classifier result that is event-related with the given
confidence (two such results are "otherwise identical"). -/
def resWith (c : ℚ) : AnalysisResult :=
  { is_event_related := some true, confidence := some c }

/-- C5: for any post passing the keyword pre-filter (and any prior
state without an event row for its id), a classifier result with
`is_event_related = true` and confidence 0.59 leads to no event-posts
row for the post, while the otherwise identical result with confidence
0.6 leads to one: the acceptance boundary `confidence >= 0.6` is
inclusive. -/
theorem confidence_threshold_inclusive (db : DB) (cfg : DetectorConfig)
    (m : String) (models : List String) (t : TweetData) (u : String)
    (hkw : (quick_keyword_check cfg t.text).1 = true)
    (hdate : parseTweetDate t.date ≠ none)
    (hnew : ∀ e ∈ db.event_tweets, e.id ≠ t.id) :
    (∀ e ∈ (save_event_tweets db ((detect_event_tweets true cfg (m :: models)
          (fun _ _ => some (resWith (mkRat 59 100))) [t]).map toEventIn)
        u).1.event_tweets, e.id ≠ t.id) ∧
      (∃ e ∈ (save_event_tweets db ((detect_event_tweets true cfg (m :: models)
          (fun _ _ => some (resWith (mkRat 6 10))) [t]).map toEventIn)
        u).1.event_tweets, e.id = t.id) := by
  have hgate59 : acceptGate (resWith (mkRat 59 100)) = false := by decide
  have hgate60 : acceptGate (resWith (mkRat 6 10)) = true := by decide
  obtain ⟨d, hd⟩ : ∃ d, parseTweetDate t.date = some d := by
    cases hp : parseTweetDate t.date with
    | none => exact absurd hp hdate
    | some d => exact ⟨d, rfl⟩
  have hany : db.event_tweets.any (fun e => e.id == t.id) = false := by
    by_contra hb
    have htrue : db.event_tweets.any (fun e => e.id == t.id) = true := by
      revert hb
      cases db.event_tweets.any (fun e => e.id == t.id) <;> simp
    obtain ⟨e, he, hid⟩ := List.any_eq_true.mp htrue
    exact hnew e he (by simpa using hid)
  constructor
  · have h59 : detect_event_tweets true cfg (m :: models)
        (fun _ _ => some (resWith (mkRat 59 100))) [t] = [] := by
      simp [detect_event_tweets, detectGo, hkw, analyzeWithFallback, hgate59]
    rw [h59]
    simpa using hnew
  · have h60 : (detect_event_tweets true cfg (m :: models)
        (fun _ _ => some (resWith (mkRat 6 10))) [t]).map toEventIn =
          [{ tweet := t, event_analysis := some (resWith (mkRat 6 10)) }] := by
      simp [detect_event_tweets, detectGo, hkw, analyzeWithFallback, hgate60,
        toEventIn]
    rw [h60]
    have hsave : save_event_tweets db
        [{ tweet := t, event_analysis := some (resWith (mkRat 6 10)) }] u =
          ({ db with
              event_tweets := db.event_tweets ++
                [mkEventRow u
                  { tweet := t, event_analysis := some (resWith (mkRat 6 10)) } d]
              all_tweets := setChecked db.all_tweets t.id }, .ok ()) := by
      simp [save_event_tweets, saveEventGo, hany, hd]
    rw [hsave]
    exact ⟨mkEventRow u
      { tweet := t, event_analysis := some (resWith (mkRat 6 10)) } d,
      by simp, rfl⟩

/-- A keyword configuration for the threshold witness. -/
def cfgC5 : DetectorConfig := ⟨["参加"], ["購入しました"]⟩

/-- A post passing the keyword pre-filter for the threshold witness. -/
def tweetC5 : TweetData :=
  { id := "601"
    text := "夏コミ参加予定です"
    date := "2024-08-01T10:00:00Z"
    url := "https://twitter.com/gina/status/601"
    username := "gina" }

/-- C5 witness: on an empty database and a concrete keyword-matching
post, confidence 0.59 yields no event row for the post and confidence
0.6 yields one (stated as closed Boolean checks over the concrete
result tables). -/
theorem confidence_threshold_inclusive_witness :
    (save_event_tweets {} ((detect_event_tweets true cfgC5
          ("gpt-4o" :: []) (fun _ _ => some (resWith (mkRat 59 100)))
          [tweetC5]).map toEventIn) "gina").1.event_tweets.all
        (fun e => e.id != tweetC5.id) = true ∧
      (save_event_tweets {} ((detect_event_tweets true cfgC5
          ("gpt-4o" :: []) (fun _ _ => some (resWith (mkRat 6 10)))
          [tweetC5]).map toEventIn) "gina").1.event_tweets.any
        (fun e => e.id == tweetC5.id) = true := by
  have h := confidence_threshold_inclusive {} cfgC5 "gpt-4o" [] tweetC5 "gina"
    (by decide) (by decide) (by decide)
  constructor
  · rw [List.all_eq_true]
    intro e he
    simpa using h.1 e he
  · obtain ⟨e, he, hid⟩ := h.2
    exact List.any_eq_true.mpr ⟨e, he, by simp [hid]⟩

end XCrawler
